import Mathlib

/-
Verification development for the contributors-spotlight scripts.

The repository contains three Python scripts:
  * scripts/get_org_contributors_info.py  - aggregates GitHub contributor
    information for an organization into a per-login profile list;
  * scripts/get_vip_contributors.py       - list-variant VIP script (filters
    orchestrator records with a non-blank github handle);
  * scripts/fetch_vip_contributors.py     - keyed-variant VIP script (builds a
    dict keyed by github handle).

The embedding below models Python/JSON values with the `Json` inductive,
Python exceptions with `PyErr`, and translates each script's logic into
executable Lean definitions.  External HTTP calls are represented by the data
they would return (passed in as parameters, wrapped in `Except` where the
call can raise).
-/

/-- Model of a Python value as obtained from `response.json()` and used by the
scripts (JSON-shaped data).  Numbers are modelled as integers; the scripts
only handle integral counters and ids. -/
inductive Json where
  | null : Json
  | bool (b : Bool) : Json
  | num (n : Int) : Json
  | str (s : String) : Json
  | arr (items : List Json) : Json
  | obj (fields : List (String × Json)) : Json

/-- Python exceptions that the modelled code can raise. -/
inductive PyErr where
  | attributeError : PyErr
  | keyError (k : String) : PyErr
  | typeError : PyErr
  | apiError (msg : String) : PyErr
deriving DecidableEq

/-- Python truthiness of a JSON-shaped value (`if x:`). -/
def pyTruthy : Json → Bool
  | .null => false
  | .bool b => b
  | .num n => n != 0
  | .str s => s != ""
  | .arr xs => !xs.isEmpty
  | .obj kvs => !kvs.isEmpty

/-- Model of `item.get(key)`: returns `none` when the key is absent; raises
`AttributeError` when the receiver is not a dict. -/
def pyGet (item : Json) (key : String) : Except PyErr (Option Json) :=
  match item with
  | .obj kvs => .ok (List.lookup key kvs)
  | _ => .error .attributeError

/-- Model of `item[key]` with a string key: raises `KeyError` when the key is absent
and `TypeError` when the receiver is not a dict. -/
def pySubscript (item : Json) (key : String) : Except PyErr Json :=
  match item with
  | .obj kvs =>
    match List.lookup key kvs with
    | some v => .ok v
    | none => .error (.keyError key)
  | _ => .error .typeError

/-- ASCII whitespace stripped by Python's `str.strip()` (the scripts' data
never contains non-ASCII whitespace). -/
def pyWhitespace (c : Char) : Bool :=
  c == ' ' || c == '\t' || c == '\n' || c == '\r' || c == '\x0b' || c == '\x0c'

/-- Model of `s.strip()` on a string: drop whitespace from both ends. -/
def pyStripStr (s : String) : String :=
  ⟨((s.data.dropWhile pyWhitespace).reverse.dropWhile pyWhitespace).reverse⟩

/-- Model of `v.strip()`: defined on strings only (`AttributeError` otherwise). -/
def pyStrip (v : Json) : Except PyErr String :=
  match v with
  | .str s => .ok (pyStripStr s)
  | _ => .error .attributeError

/-- Model of `str(v)` as used by f-string interpolation.  The scripts only interpolate
scalar `id` fields; the rendering of containers is immaterial to every claim
and abbreviated. -/
def pyStr : Json → String
  | .null => "None"
  | .bool true => "True"
  | .bool false => "False"
  | .num n => toString n
  | .str s => s
  | .arr _ => "[...]"
  | .obj _ => "\x7b...\x7d"

/-- Model of `for item in data`: lists iterate their elements, dicts their keys,
strings their characters; other values raise `TypeError`. -/
def pyIter : Json → Except PyErr (List Json)
  | .arr xs => .ok xs
  | .obj kvs => .ok (kvs.map (fun kv => Json.str kv.1))
  | .str s => .ok (s.toList.map (fun c => Json.str (String.singleton c)))
  | _ => .error .typeError

/-- Observable outcome of one script run: whether the process exited with
status zero, and the JSON value written to the output file (`none` when the
file was not written or modified). -/
structure RunResult where
  exitZero : Bool
  written : Option Json

/-! ## get_vip_contributors.py (list variant) -/

/-- The filter condition of both VIP comprehensions:
`item.get("github") and item["github"].strip() != ""`
(evaluated left to right with Python short-circuiting; any raised exception
propagates). -/
def vipKeep (item : Json) : Except PyErr Bool :=
  match pyGet item "github" with
  | .error e => .error e
  | .ok none => .ok false
  | .ok (some g) =>
    if !pyTruthy g then .ok false
    else
      match pySubscript item "github" with
      | .error e => .error e
      | .ok gv =>
        match pyStrip gv with
        | .error e => .error e
        | .ok s => .ok (s != "")

/-- The element expression of the list-variant comprehension:
`{"github": item["github"], "profile_url": f"https://explorer.livepeer.org/accounts/{item['id']}/orchestrating"}`. -/
def vipProject (item : Json) : Except PyErr Json :=
  match pySubscript item "github" with
  | .error e => .error e
  | .ok g =>
    match pySubscript item "id" with
    | .error e => .error e
    | .ok idv =>
      .ok (.obj [("github", g),
                 ("profile_url",
                  .str ("https://explorer.livepeer.org/accounts/" ++ pyStr idv
                        ++ "/orchestrating"))])

/-- The list comprehension `filtered_data` of get_vip_contributors.py: for
each item the condition runs first, then (when it holds) the element
expression; a raised exception aborts the whole comprehension. -/
def vipFiltered : List Json → Except PyErr (List Json)
  | [] => .ok []
  | item :: rest =>
    match vipKeep item with
    | .error e => .error e
    | .ok false => vipFiltered rest
    | .ok true =>
      match vipProject item with
      | .error e => .error e
      | .ok r =>
        match vipFiltered rest with
        | .error e => .error e
        | .ok rs => .ok (r :: rs)

/-- The `__main__` block of get_vip_contributors.py, as a function of the
payload returned by the ens-data endpoint: a non-list payload hits the
explicit `isinstance` check and `sys.exit(1)`; an exception inside the
comprehension aborts before `save_to_json`; otherwise the filtered list is
written and the process exits zero. -/
def getVipMain (data : Json) : RunResult :=
  match data with
  | .arr items =>
    match vipFiltered items with
    | .error _ => ⟨false, none⟩
    | .ok out => ⟨true, some (.arr out)⟩
  | _ => ⟨false, none⟩

/-! ## fetch_vip_contributors.py (keyed variant) -/

/-- Key/value expressions of the keyed comprehension:
key `item["github"]`, value `{"name": item["name"], "url": f"...{item['id']}..."}`,
evaluated in that order. -/
def keyedValue (item : Json) : Except PyErr (String × Json) :=
  match pySubscript item "github" with
  | .error e => .error e
  | .ok gv =>
    match gv with
    | .str g =>
      match pySubscript item "name" with
      | .error e => .error e
      | .ok namev =>
        match pySubscript item "id" with
        | .error e => .error e
        | .ok idv =>
          .ok (g, .obj [("name", namev),
                        ("url",
                         .str ("https://explorer.livepeer.org/accounts/"
                               ++ pyStr idv ++ "/orchestrating"))])
    | _ => .error .typeError

/-- Python dict assignment `d[k] = v`: overwrites the value in place when the
key exists (keeping its original position), otherwise appends. -/
def pyDictInsert (d : List (String × Json)) (k : String) (v : Json) :
    List (String × Json) :=
  if d.any (fun kv => kv.1 == k) then
    d.map (fun kv => if kv.1 == k then (k, v) else kv)
  else d ++ [(k, v)]

/-- The keyed dict comprehension of fetch_vip_contributors.py, folding the
iterated items into a dict: condition first, then key/value, then assignment. -/
def fetchFilteredList : List (String × Json) → List Json →
    Except PyErr (List (String × Json))
  | acc, [] => .ok acc
  | acc, item :: rest =>
    match vipKeep item with
    | .error e => .error e
    | .ok false => fetchFilteredList acc rest
    | .ok true =>
      match keyedValue item with
      | .error e => .error e
      | .ok (k, v) => fetchFilteredList (pyDictInsert acc k v) rest

/-- The `filtered_data` expression of fetch_vip_contributors.py: the payload is iterated
with no prior shape check (`for item in data` on whatever `response.json()`
returned). -/
def fetchFiltered (data : Json) : Except PyErr (List (String × Json)) :=
  match pyIter data with
  | .error e => .error e
  | .ok items => fetchFilteredList [] items

/-- The `__main__` block of fetch_vip_contributors.py as a function of the
payload: any exception aborts before `save_to_json`; on success the keyed
dict is written and the process exits zero. -/
def fetchVipMain (data : Json) : RunResult :=
  match fetchFiltered data with
  | .error _ => ⟨false, none⟩
  | .ok kvs => ⟨true, some (.obj kvs)⟩

/-! ## get_org_contributors_info.py -/

/-- A contributor record as returned by `repo.get_contributors()`: the static
profile attributes plus the lifetime contribution count for that repository. -/
structure Contributor where
  login : String
  name : String
  avatar_url : String
  location : String
  company : String
  bio : String
  blog : String
  twitter_username : String
  contributions : Nat
deriving DecidableEq

/-- A repository as seen by the script: the `fork` flag and `full_name`
attributes, plus the results of the two API calls made per repository --
`get_contributors()` and `get_commits(author, since, until).totalCount`
(dates are modelled as integer timestamps in seconds).  Either call can
raise, hence the `Except`. -/
structure Repo where
  fork : Bool
  full_name : String
  get_contributors : Except PyErr (List Contributor)
  commitsCount : String → Int → Int → Except PyErr Nat

/-- The `ContributorInfo` class: per-login aggregated profile.  `contributions`
and `yearly_contributions` start at zero in `__init__`. -/
structure ContributorInfo where
  login : String
  name : String
  avatar_url : String
  location : String
  company : String
  bio : String
  blog_url : String
  twitter_username : String
  org_member : Bool
  contributions : Nat
  yearly_contributions : Nat
deriving DecidableEq

/-- Constructor `ContributorInfo.__init__` (counters start at zero). -/
def ContributorInfo.init (login name avatar_url location company bio blog_url
    twitter_username : String) (org_member : Bool) : ContributorInfo :=
  ⟨login, name, avatar_url, location, company, bio, blog_url,
   twitter_username, org_member, 0, 0⟩

/-- Method `ContributorInfo.add_contributions`. -/
def ContributorInfo.add_contributions (c : ContributorInfo) (n : Nat) :
    ContributorInfo :=
  { c with contributions := c.contributions + n }

/-- Method `ContributorInfo.add_yearly_contributions`. -/
def ContributorInfo.add_yearly_contributions (c : ContributorInfo) (n : Nat) :
    ContributorInfo :=
  { c with yearly_contributions := c.yearly_contributions + n }

/-- Method `ContributorInfo.to_dict`. -/
def ContributorInfo.to_dict (c : ContributorInfo) : List (String × Json) :=
  [("login", .str c.login), ("name", .str c.name),
   ("avatar_url", .str c.avatar_url), ("location", .str c.location),
   ("company", .str c.company), ("bio", .str c.bio),
   ("blog_url", .str c.blog_url),
   ("twitter_username", .str c.twitter_username),
   ("org_member", .bool c.org_member),
   ("contributions", .num c.contributions),
   ("yearly_contributions", .num c.yearly_contributions)]

/-- The ordered mapping `contributors_info: Dict[str, ContributorInfo]`
(Python dicts preserve insertion order). -/
abbrev CDict := List (String × ContributorInfo)

/-- Membership test `login in contributors_info` on the dict keys. -/
def dictContains (d : CDict) (k : String) : Bool :=
  d.any (fun kv => kv.1 == k)

/-- Lookup `contributors_info[login]` (first matching key). -/
def dictLookup (d : CDict) (l : String) : Option ContributorInfo :=
  match d with
  | [] => none
  | kv :: rest => if kv.1 == l then some kv.2 else dictLookup rest l

/-- In-place mutation `contributors_info[login].f(...)`: the stored object
for that key is updated. -/
def dictUpdate (d : CDict) (k : String) (f : ContributorInfo → ContributorInfo) :
    CDict :=
  d.map (fun kv => if kv.1 == k then (kv.1, f kv.2) else kv)

/-- The new profile created at first encounter of a login (the `__init__`
call inside the loop); `org_member` tests the login against the precomputed
public-members list. -/
def newProfile (public_members : List String) (c : Contributor) :
    ContributorInfo :=
  ContributorInfo.init c.login c.name c.avatar_url c.location c.company
    c.bio c.blog c.twitter_username (public_members.contains c.login)

/-- Function `get_public_org_members`: boundary of the members API call — the script
consumes the list of member logins the call returns (or the exception it
raises). -/
def get_public_org_members (membersResult : Except PyErr (List String)) :
    Except PyErr (List String) :=
  membersResult

/-- Function `get_public_source_repos`: fetches the organization's public repositories
and keeps only non-forks. -/
def get_public_source_repos (reposResult : Except PyErr (List Repo)) :
    Except PyErr (List Repo) :=
  match reposResult with
  | .error e => .error e
  | .ok repos => .ok (repos.filter (fun r => !r.fork))

/-- Function `get_contributions_between_dates`: commit count for a repository/login
pair within `[start_date, end_date]`. -/
def get_contributions_between_dates (repo : Repo) (contributor_login : String)
    (start_date end_date : Int) : Except PyErr Nat :=
  repo.commitsCount contributor_login start_date end_date

/-- Body of the inner loop of `get_org_contributors_info` for one contributor
record: create the profile on first encounter, add the lifetime count, query
the yearly commit count and add it.  A raised exception propagates. -/
def foldContributor (public_members : List String) (repo : Repo)
    (start_date end_date : Int) (d : CDict) (c : Contributor) :
    Except PyErr CDict :=
  let d1 := if dictContains d c.login then d
            else d ++ [(c.login, newProfile public_members c)]
  let d2 := dictUpdate d1 c.login
              (fun p => p.add_contributions c.contributions)
  match get_contributions_between_dates repo c.login start_date end_date with
  | .error e => .error e
  | .ok yearly =>
    .ok (dictUpdate d2 c.login (fun p => p.add_yearly_contributions yearly))

/-- The inner `for contributor in repo.get_contributors()` loop over an
already-fetched record list. -/
def foldContribList (public_members : List String) (repo : Repo)
    (start_date end_date : Int) : CDict → List Contributor →
    Except PyErr CDict
  | d, [] => .ok d
  | d, c :: cs =>
    match foldContributor public_members repo start_date end_date d c with
    | .error e => .error e
    | .ok d1 => foldContribList public_members repo start_date end_date d1 cs

/-- The outer `for repo in ...` loop: fetch the repository's contributors
(which can raise) and fold them. -/
def foldRepoList (public_members : List String) (start_date end_date : Int) :
    CDict → List Repo → Except PyErr CDict
  | d, [] => .ok d
  | d, r :: rs =>
    match r.get_contributors with
    | .error e => .error e
    | .ok cs =>
      match foldContribList public_members r start_date end_date d cs with
      | .error e => .error e
      | .ok d1 => foldRepoList public_members start_date end_date d1 rs

/-- Seconds in a day; `datetime.timedelta(days=365)` is `365 * secondsPerDay`
on integer timestamps. -/
def secondsPerDay : Int := 86400

/-- The `contributors_info` dict built by `get_org_contributors_info` as a
function of the API results and the current time `now`:
`end_date = now`, `start_date = now - timedelta(days=365)`, and the loop runs
over `public_repos[:1]` exactly as written in the source. -/
def contributors_info_dict (membersResult : Except PyErr (List String))
    (reposResult : Except PyErr (List Repo)) (now : Int) :
    Except PyErr CDict :=
  match get_public_org_members membersResult with
  | .error e => .error e
  | .ok public_members =>
    match get_public_source_repos reposResult with
    | .error e => .error e
    | .ok public_repos =>
      foldRepoList public_members (now - 365 * secondsPerDay) now []
        (public_repos.take 1)

/-- Function `get_org_contributors_info`: the dict's values serialized through
`to_dict`. -/
def get_org_contributors_info (membersResult : Except PyErr (List String))
    (reposResult : Except PyErr (List Repo)) (now : Int) :
    Except PyErr (List (List (String × Json))) :=
  match contributors_info_dict membersResult reposResult now with
  | .error e => .error e
  | .ok d => .ok (d.map (fun kv => kv.2.to_dict))

/-- The `__main__` block of get_org_contributors_info.py: any exception
raised while fetching/aggregating aborts the process before `save_to_json`;
on success the profile list is written and the process exits zero. -/
def orgMain (membersResult : Except PyErr (List String))
    (reposResult : Except PyErr (List Repo)) (now : Int) : RunResult :=
  match get_org_contributors_info membersResult reposResult now with
  | .error _ => ⟨false, none⟩
  | .ok v => ⟨true, some (.arr (v.map Json.obj))⟩

/-! ### Module-level configuration of get_org_contributors_info.py -/

/-- Model of `os.getenv`. -/
def lookupEnv (env : List (String × String)) (k : String) : Option String :=
  List.lookup k env

/-- Python falsiness of an `os.getenv` result (`not GITHUB_TOKEN`): unset or
empty string. -/
def strFalsy : Option String → Bool
  | none => true
  | some s => s == ""

/-- The PyGithub client object constructed at module level. -/
structure GithubClient where
  token : String
deriving DecidableEq

/-- Module top level of get_org_contributors_info.py: read both environment
variables, raise `ValueError` if either is falsy, and only then construct the
API client.  The `.ok` value holds the constructed client and the org name;
an `.error` means the module aborted before the client existed (hence before
any network call). -/
def moduleInit (env : List (String × String)) :
    Except String (GithubClient × String) :=
  let tok := lookupEnv env "GITHUB_TOKEN"
  let org := lookupEnv env "ORG_NAME"
  if strFalsy tok then .error "GITHUB_TOKEN environment variable not set"
  else if strFalsy org then .error "ORG_NAME environment variable not set"
  else .ok (⟨tok.getD ""⟩, org.getD "")

/-! ### Pure shadow of the aggregation loop

When the whole run succeeds, every API call inside the loop returned `.ok`,
so the `Except`-valued loop coincides with a pure fold; the pure versions
below extract the `.ok` payloads (with irrelevant defaults in the `.error`
case, which cannot occur on a successful run). -/

/-- The contributor list of a repository on a successful run. -/
def okContribs (r : Repo) : List Contributor :=
  match r.get_contributors with
  | .ok cs => cs
  | .error _ => []

/-- The commit count returned for a repository/login/date-range triple on a
successful run. -/
def okCommit (r : Repo) (l : String) (s e : Int) : Nat :=
  match r.commitsCount l s e with
  | .ok n => n
  | .error _ => 0

/-- Pure version of `foldContributor`. -/
def stepP (public_members : List String) (repo : Repo) (s e : Int)
    (d : CDict) (c : Contributor) : CDict :=
  let d1 := if dictContains d c.login then d
            else d ++ [(c.login, newProfile public_members c)]
  let d2 := dictUpdate d1 c.login
              (fun p => p.add_contributions c.contributions)
  dictUpdate d2 c.login
    (fun p => p.add_yearly_contributions (okCommit repo c.login s e))

/-- Pure step on one (repository, contributor) record. -/
def recStep (public_members : List String) (s e : Int) (d : CDict)
    (rc : Repo × Contributor) : CDict :=
  stepP public_members rc.1 s e d rc.2

/-- The stream of (repository, contributor) records the loop processes, in
iteration order. -/
def recsOf : List Repo → List (Repo × Contributor)
  | [] => []
  | r :: rs => (okContribs r).map (fun c => (r, c)) ++ recsOf rs

/-- Sum of the raw lifetime contribution counts of a login across a record
stream. -/
def rawSum (recs : List (Repo × Contributor)) (l : String) : Nat :=
  ((recs.filter (fun rc => rc.2.login == l)).map
    (fun rc => rc.2.contributions)).sum

/-- Sum of the windowed commit counts queried for a login across a record
stream. -/
def ySum (s e : Int) (recs : List (Repo × Contributor)) (l : String) : Nat :=
  ((recs.filter (fun rc => rc.2.login == l)).map
    (fun rc => okCommit rc.1 l s e)).sum

/-- The first record in iteration order bearing a given login. -/
def firstRec (recs : List (Repo × Contributor)) (l : String) :
    Option (Repo × Contributor) :=
  recs.find? (fun rc => rc.2.login == l)

/-- The repositories the script actually iterates: the fork filter of
`get_public_source_repos` followed by the `[:1]` slice. -/
def processedRepos (reposResult : Except PyErr (List Repo)) : List Repo :=
  match reposResult with
  | .ok repos => (repos.filter (fun r => !r.fork)).take 1
  | .error _ => []

/-! ### Spec-side (claim-side) definitions for the VIP scripts -/

/-- Claim-side predicate: the record's identity field `github` is present and
non-blank after trimming whitespace. -/
def githubNonBlank (item : Json) : Bool :=
  match item with
  | .obj kvs =>
    match List.lookup "github" kvs with
    | some (.str s) => pyStripStr s != ""
    | _ => false
  | _ => false

/-- Pure projection of a kept record in the list variant (total counterpart
of `vipProject`, agreeing with it on records the filter keeps). -/
def projectVipP (item : Json) : Json :=
  match item with
  | .obj kvs =>
    .obj [("github", (List.lookup "github" kvs).getD .null),
          ("profile_url",
           .str ("https://explorer.livepeer.org/accounts/"
                 ++ pyStr ((List.lookup "id" kvs).getD .null)
                 ++ "/orchestrating"))]
  | _ => .null

/-- Is the value a JSON object (Python dict)? -/
def isObjB : Json → Bool
  | .obj _ => true
  | _ => false

/-- The `github` field, when present, is either a string or falsy — the
shapes on which the filter condition runs without raising. -/
def githubFieldOk (item : Json) : Bool :=
  match item with
  | .obj kvs =>
    match List.lookup "github" kvs with
    | none => true
    | some (.str _) => true
    | some v => !pyTruthy v
  | _ => false

/-- The record has an `id` field. -/
def hasId : Json → Bool
  | .obj kvs => (List.lookup "id" kvs).isSome
  | _ => false

/-- The record has a `name` field. -/
def hasName : Json → Bool
  | .obj kvs => (List.lookup "name" kvs).isSome
  | _ => false

/-- Well-formedness of a raw record for the list variant: a dict whose
`github` field (if any) is a string or falsy, and which carries an `id` when
the filter keeps it. -/
def vipItemOk (item : Json) : Bool :=
  isObjB item && githubFieldOk item && (!githubNonBlank item || hasId item)

/-- Well-formedness of a raw record for the keyed variant: additionally needs
a `name` field when kept. -/
def keyedItemOk (item : Json) : Bool :=
  isObjB item && githubFieldOk item
    && (!githubNonBlank item || (hasId item && hasName item))

/-- The github handle used as the output key for a kept record. -/
def githubKeyOf (item : Json) : String :=
  match item with
  | .obj kvs =>
    match List.lookup "github" kvs with
    | some (.str s) => s
    | _ => ""
  | _ => ""

/-- Pure value built for a kept record in the keyed variant. -/
def keyedValueP (item : Json) : Json :=
  match item with
  | .obj kvs =>
    .obj [("name", (List.lookup "name" kvs).getD .null),
          ("url",
           .str ("https://explorer.livepeer.org/accounts/"
                 ++ pyStr ((List.lookup "id" kvs).getD .null)
                 ++ "/orchestrating"))]
  | _ => .null

/-- Pure step of the keyed comprehension on one well-formed record. -/
def keyedStep (acc : List (String × Json)) (item : Json) :
    List (String × Json) :=
  if githubNonBlank item then
    pyDictInsert acc (githubKeyOf item) (keyedValueP item)
  else acc

/-- Pure shadow of the keyed comprehension over well-formed records. -/
def keyedDict (data : List Json) : List (String × Json) :=
  data.foldl keyedStep []

/-! ### Concrete fixtures used by counterexamples and witnesses -/

/-- A contributor record for login alice as reported by a first repository. -/
def aliceRec1 : Contributor :=
  ⟨"alice", "Alice One", "av1", "loc1", "co1", "bio1", "blog1", "tw1", 5⟩

/-- A contributor record for the same login with different descriptive
fields, as reported by a second repository. -/
def aliceRec2 : Contributor :=
  ⟨"alice", "Alice Two", "av2", "loc2", "co2", "bio2", "blog2", "tw2", 3⟩

/-- A contributor record for login bob. -/
def bobRec : Contributor :=
  ⟨"bob", "Bob", "avb", "locb", "cob", "biob", "blogb", "twb", 2⟩

/-- Non-fork repository contributed to by alice (count 5). -/
def wRepo1 : Repo := ⟨false, "org/repo1", .ok [aliceRec1], fun _ _ _ => .ok 2⟩

/-- Non-fork repository contributed to by alice (count 3), with different
descriptive fields. -/
def wRepo2 : Repo := ⟨false, "org/repo2", .ok [aliceRec2], fun _ _ _ => .ok 1⟩

/-- Non-fork repository contributed to by bob only. -/
def repo1_bug : Repo := ⟨false, "org/r1", .ok [bobRec], fun _ _ _ => .ok 0⟩

/-- Non-fork repository contributed to by alice only. -/
def repo2_bug : Repo := ⟨false, "org/r2", .ok [aliceRec1], fun _ _ _ => .ok 0⟩

/-- Fork repository contributed to by alice (count 3). -/
def repoFork : Repo := ⟨true, "org/r2f", .ok [aliceRec2], fun _ _ _ => .ok 0⟩

/-- The aggregated profile for alice after folding `wRepo1` then `wRepo2`
with members list `["alice"]` and window `[0, 1]`. -/
def wProfile : ContributorInfo :=
  ⟨"alice", "Alice One", "av1", "loc1", "co1", "bio1", "blog1", "tw1",
   true, 8, 3⟩

/-- The aggregated profile for alice after folding the same repositories in
the opposite order. -/
def wProfileRev : ContributorInfo :=
  ⟨"alice", "Alice Two", "av2", "loc2", "co2", "bio2", "blog2", "tw2",
   true, 8, 3⟩

/-- The aggregated profile for alice in the C8 witness run (only `wRepo1`
gets processed due to the `[:1]` slice). -/
def wProfileC8 : ContributorInfo :=
  ⟨"alice", "Alice One", "av1", "loc1", "co1", "bio1", "blog1", "tw1",
   true, 5, 2⟩

/-- Is the value a JSON array (Python list)? -/
def isArrB : Json → Bool
  | .arr _ => true
  | _ => false

/-- First raw record of the duplicate-handle fixture: handle `al`, name `A`. -/
def item1C10 : Json :=
  .obj [("github", .str "al"), ("name", .str "A"), ("id", .num 1)]

/-- Second raw record of the duplicate-handle fixture: same handle `al`,
name `B`. -/
def item2C10 : Json :=
  .obj [("github", .str "al"), ("name", .str "B"), ("id", .num 2)]

/-- Fixture payload for the list-variant filter: one record with a non-blank
handle, one with a whitespace-only handle, one with no handle. -/
def vipData : List Json :=
  [.obj [("github", .str "alice"), ("id", .num 1)],
   .obj [("github", .str "  ")],
   .obj [("id", .num 2)]]

/-! ### Dictionary lemmas -/

theorem dictContains_eq_isSome (d : CDict) (k : String) :
    dictContains d k = (dictLookup d k).isSome := by
  induction d with
  | nil => rfl
  | cons kv rest ih =>
    simp only [dictContains, List.any_cons, dictLookup]
    by_cases h : kv.1 == k
    · simp [h]
    · simp only [h, Bool.false_or, if_neg h]
      exact ih

theorem dictLookup_append (d : CDict) (k : String) (v : ContributorInfo)
    (l : String) :
    dictLookup (d ++ [(k, v)]) l =
      match dictLookup d l with
      | some q => some q
      | none => if k == l then some v else none := by
  induction d with
  | nil => rfl
  | cons kv rest ih =>
    simp only [List.cons_append, dictLookup]
    by_cases h : kv.1 == l
    · simp [h]
    · simp only [if_neg h]
      exact ih

theorem dictUpdate_cons (kv : String × ContributorInfo) (rest : CDict)
    (k : String) (f : ContributorInfo → ContributorInfo) :
    dictUpdate (kv :: rest) k f =
      (if kv.1 == k then (kv.1, f kv.2) else kv) :: dictUpdate rest k f := rfl

theorem dictLookup_update (d : CDict) (k : String)
    (f : ContributorInfo → ContributorInfo) (l : String) :
    dictLookup (dictUpdate d k f) l =
      if k == l then (dictLookup d l).map f else dictLookup d l := by
  induction d with
  | nil => cases h : (k == l) <;> simp [dictUpdate, dictLookup, h]
  | cons kv rest ih =>
    rw [dictUpdate_cons]
    by_cases hk : kv.1 = k
    · subst hk
      by_cases hl : kv.1 = l
      · subst hl
        simp [dictLookup]
      · have hbl : (kv.1 == l) = false := beq_eq_false_iff_ne.mpr hl
        simp [dictLookup, hbl, ih]
    · have hbk : (kv.1 == k) = false := beq_eq_false_iff_ne.mpr hk
      by_cases hl : kv.1 = l
      · subst hl
        have hkl : (k == kv.1) = false :=
          beq_eq_false_iff_ne.mpr (fun h => hk h.symm)
        simp [dictLookup, hbk, hkl]
      · have hbl : (kv.1 == l) = false := beq_eq_false_iff_ne.mpr hl
        simp [dictLookup, hbk, hbl, ih]

theorem dictLookup_stepP (m : List String) (r : Repo) (s e : Int) (d : CDict)
    (c : Contributor) (l : String) :
    dictLookup (stepP m r s e d c) l =
      if c.login == l then
        match dictLookup d l with
        | some q =>
          some { q with
                 contributions := q.contributions + c.contributions,
                 yearly_contributions :=
                   q.yearly_contributions + okCommit r c.login s e }
        | none =>
          some { newProfile m c with
                 contributions := c.contributions,
                 yearly_contributions := okCommit r c.login s e }
      else dictLookup d l := by
  simp only [stepP]
  rw [dictLookup_update, dictLookup_update]
  by_cases h : c.login = l
  · subst h
    simp only [beq_self_eq_true, if_pos]
    by_cases hd : dictContains d c.login = true
    · rw [if_pos hd]
      cases hq : dictLookup d c.login with
      | none =>
        rw [dictContains_eq_isSome, hq] at hd
        simp at hd
      | some q =>
        simp [hq, ContributorInfo.add_contributions,
          ContributorInfo.add_yearly_contributions]
    · rw [if_neg hd]
      have hq : dictLookup d c.login = none := by
        rw [dictContains_eq_isSome] at hd
        cases hq : dictLookup d c.login with
        | none => rfl
        | some q => rw [hq] at hd; simp at hd
      rw [dictLookup_append, hq]
      simp [ContributorInfo.add_contributions,
        ContributorInfo.add_yearly_contributions, newProfile,
        ContributorInfo.init]
  · have hb : (c.login == l) = false := beq_eq_false_iff_ne.mpr h
    simp only [hb, Bool.false_eq_true, if_neg, not_false_eq_true]
    by_cases hd : dictContains d c.login = true
    · rw [if_pos hd]
    · rw [if_neg hd, dictLookup_append, hb]
      cases hq : dictLookup d l <;> simp

theorem rawSum_cons_pos {rc : Repo × Contributor}
    {recs : List (Repo × Contributor)} {l : String}
    (h : (rc.2.login == l) = true) :
    rawSum (rc :: recs) l = rc.2.contributions + rawSum recs l := by
  simp [rawSum, List.filter_cons, h]

theorem rawSum_cons_neg {rc : Repo × Contributor}
    {recs : List (Repo × Contributor)} {l : String}
    (h : (rc.2.login == l) = false) :
    rawSum (rc :: recs) l = rawSum recs l := by
  simp [rawSum, List.filter_cons, h]

theorem ySum_cons_pos {s e : Int} {rc : Repo × Contributor}
    {recs : List (Repo × Contributor)} {l : String}
    (h : (rc.2.login == l) = true) :
    ySum s e (rc :: recs) l = okCommit rc.1 l s e + ySum s e recs l := by
  simp [ySum, List.filter_cons, h]

theorem ySum_cons_neg {s e : Int} {rc : Repo × Contributor}
    {recs : List (Repo × Contributor)} {l : String}
    (h : (rc.2.login == l) = false) :
    ySum s e (rc :: recs) l = ySum s e recs l := by
  simp [ySum, List.filter_cons, h]

theorem firstRec_cons_pos {rc : Repo × Contributor}
    {recs : List (Repo × Contributor)} {l : String}
    (h : (rc.2.login == l) = true) :
    firstRec (rc :: recs) l = some rc := by
  simp [firstRec, List.find?_cons, h]

theorem firstRec_cons_neg {rc : Repo × Contributor}
    {recs : List (Repo × Contributor)} {l : String}
    (h : (rc.2.login == l) = false) :
    firstRec (rc :: recs) l = firstRec recs l := by
  simp [firstRec, List.find?_cons, h]

/-- Characterization of the aggregation fold: the profile found for a login
after folding a record stream is obtained from the profile in the initial
dictionary (or, failing that, from the first record bearing that login) by
adding the raw and windowed contribution sums of that login. -/
theorem dictLookup_foldRecs (m : List String) (s e : Int)
    (recs : List (Repo × Contributor)) (d : CDict) (l : String) :
    dictLookup (List.foldl (recStep m s e) d recs) l =
      match dictLookup d l with
      | some q =>
        some { q with
               contributions := q.contributions + rawSum recs l,
               yearly_contributions :=
                 q.yearly_contributions + ySum s e recs l }
      | none =>
        match firstRec recs l with
        | none => none
        | some rc =>
          some { newProfile m rc.2 with
                 contributions := rawSum recs l,
                 yearly_contributions := ySum s e recs l } := by
  induction recs generalizing d with
  | nil =>
    cases hq : dictLookup d l with
    | none => simp [rawSum, ySum, firstRec, List.find?, hq]
    | some q => simp [rawSum, ySum, firstRec, List.find?, hq]
  | cons rc rest ih =>
    rw [List.foldl_cons, ih]
    by_cases hb : rc.2.login = l
    · subst hb
      rw [show recStep m s e d rc = stepP m rc.1 s e d rc.2 from rfl,
        dictLookup_stepP,
        rawSum_cons_pos (beq_self_eq_true _),
        ySum_cons_pos (beq_self_eq_true _),
        firstRec_cons_pos (beq_self_eq_true _)]
      simp only [beq_self_eq_true, if_pos]
      cases hq : dictLookup d rc.2.login with
      | none => rfl
      | some q =>
        simp only [Option.some.injEq, ContributorInfo.mk.injEq]
        exact ⟨trivial, trivial, trivial, trivial, trivial, trivial,
          trivial, trivial, trivial, Nat.add_assoc _ _ _, Nat.add_assoc _ _ _⟩
    · have hbf : (rc.2.login == l) = false := beq_eq_false_iff_ne.mpr hb
      rw [show recStep m s e d rc = stepP m rc.1 s e d rc.2 from rfl,
        dictLookup_stepP,
        rawSum_cons_neg hbf, ySum_cons_neg hbf, firstRec_cons_neg hbf]
      simp only [hbf, Bool.false_eq_true, if_neg, not_false_eq_true]

/-! ### Transfer from the fallible loop to the pure fold -/

theorem foldContributor_ok {m : List String} {r : Repo} {s e : Int}
    {d : CDict} {c : Contributor} {d' : CDict}
    (h : foldContributor m r s e d c = .ok d') :
    d' = stepP m r s e d c := by
  simp only [foldContributor, get_contributions_between_dates] at h
  cases hc : r.commitsCount c.login s e with
  | error err => rw [hc] at h; exact absurd h (by simp)
  | ok n =>
    rw [hc] at h
    simp only [Except.ok.injEq] at h
    rw [← h]
    simp [stepP, okCommit, hc]

theorem foldContribList_ok {m : List String} {r : Repo} {s e : Int} :
    ∀ {cs : List Contributor} {d d' : CDict},
    foldContribList m r s e d cs = .ok d' →
    d' = List.foldl (stepP m r s e) d cs := by
  intro cs
  induction cs with
  | nil =>
    intro d d' h
    simp only [foldContribList, Except.ok.injEq] at h
    simp [← h]
  | cons c cs ih =>
    intro d d' h
    simp only [foldContribList] at h
    cases hf : foldContributor m r s e d c with
    | error err => rw [hf] at h; exact absurd h (by simp)
    | ok d1 =>
      rw [hf] at h
      rw [List.foldl_cons, ← foldContributor_ok hf]
      exact ih h

theorem foldRepoList_ok {m : List String} {s e : Int} :
    ∀ {repos : List Repo} {d d' : CDict},
    foldRepoList m s e d repos = .ok d' →
    d' = List.foldl (recStep m s e) d (recsOf repos) := by
  intro repos
  induction repos with
  | nil =>
    intro d d' h
    simp only [foldRepoList, Except.ok.injEq] at h
    simp [recsOf, ← h]
  | cons r rs ih =>
    intro d d' h
    simp only [foldRepoList] at h
    cases hg : r.get_contributors with
    | error err => rw [hg] at h; exact absurd h (by simp)
    | ok cs =>
      simp only [hg] at h
      cases hf : foldContribList m r s e d cs with
      | error err => simp only [hf] at h; exact absurd h (by simp)
      | ok d1 =>
        simp only [hf] at h
        have hcs : okContribs r = cs := by simp [okContribs, hg]
        have : recsOf (r :: rs) =
            cs.map (fun c => (r, c)) ++ recsOf rs := by
          simp [recsOf, hcs]
        rw [this, List.foldl_append, List.foldl_map]
        rw [show (fun (d : CDict) (c : Contributor) =>
              recStep m s e d (r, c)) = stepP m r s e from rfl]
        rw [← foldContribList_ok hf]
        exact ih h

/-- Combined form used by the claim proofs: a successful run of the loop over
`repos`, inspected at login `l`. -/
theorem foldRepoList_lookup {m : List String} {s e : Int} {repos : List Repo}
    {d : CDict} (h : foldRepoList m s e [] repos = .ok d) (l : String) :
    dictLookup d l =
      match firstRec (recsOf repos) l with
      | none => none
      | some rc =>
        some { newProfile m rc.2 with
               contributions := rawSum (recsOf repos) l,
               yearly_contributions := ySum s e (recsOf repos) l } := by
  rw [foldRepoList_ok h, dictLookup_foldRecs]
  rfl

/-! ### Claim theorems for the aggregator -/

theorem contains_iff_mem (xs : List String) (a : String) :
    xs.contains a = true ↔ a ∈ xs :=
  List.elem_iff

/-- The org-membership flag of any profile reachable in a successfully built
dictionary equals the membership test of its login against the members
list. -/
theorem orgMember_of_lookup {m : List String} {s e : Int} {repos : List Repo}
    {d : CDict} {l : String} {p : ContributorInfo}
    (hd : foldRepoList m s e [] repos = .ok d)
    (hp : dictLookup d l = some p) :
    p.org_member = m.contains l := by
  rw [foldRepoList_lookup hd l] at hp
  cases hr : firstRec (recsOf repos) l with
  | none => rw [hr] at hp; exact absurd hp (by simp)
  | some rc =>
    rw [hr] at hp
    simp only [Option.some.injEq] at hp
    have hl : rc.2.login = l := by
      have := List.find?_some hr
      exact eq_of_beq this
    rw [← hp]
    simp [newProfile, ContributorInfo.init, hl]

/-- C3: the merged profile's static attributes (name, avatar URL, location,
company, bio, blog, twitter handle, org-member flag) equal the values from
the first (repository, contributor) record in iteration order bearing that
login; records processed later change only the numeric counters. -/
theorem agg_static_attrs_first_seen (m : List String) (s e : Int)
    (repos : List Repo) (d : CDict) (l : String) (p : ContributorInfo)
    (rc : Repo × Contributor)
    (hd : foldRepoList m s e [] repos = .ok d)
    (hp : dictLookup d l = some p)
    (hr : firstRec (recsOf repos) l = some rc) :
    p.name = rc.2.name ∧ p.avatar_url = rc.2.avatar_url ∧
    p.location = rc.2.location ∧ p.company = rc.2.company ∧
    p.bio = rc.2.bio ∧ p.blog_url = rc.2.blog ∧
    p.twitter_username = rc.2.twitter_username ∧
    p.org_member = m.contains rc.2.login := by
  rw [foldRepoList_lookup hd l, hr] at hp
  simp only [Option.some.injEq] at hp
  rw [← hp]
  exact ⟨rfl, rfl, rfl, rfl, rfl, rfl, rfl, rfl⟩

/-- Witness for C3 at a concrete input: two repositories both listing alice
with differing descriptive fields; the merged profile carries the fields of
the first. -/
theorem agg_static_attrs_first_seen_witness :
    wProfile.name = aliceRec1.name ∧
    wProfile.avatar_url = aliceRec1.avatar_url ∧
    wProfile.location = aliceRec1.location ∧
    wProfile.company = aliceRec1.company ∧
    wProfile.bio = aliceRec1.bio ∧
    wProfile.blog_url = aliceRec1.blog ∧
    wProfile.twitter_username = aliceRec1.twitter_username ∧
    wProfile.org_member = ["alice"].contains aliceRec1.login :=
  agg_static_attrs_first_seen ["alice"] 0 1 [wRepo1, wRepo2]
    [("alice", wProfile)] "alice" wProfile (wRepo1, aliceRec1)
    (by rfl) (by rfl) (by rfl)

/-- C7: a profile's org-member flag is true iff its login is in the
public-members list gathered before the loop, and the flag is independent of
the order in which repositories are iterated (any two successful runs over
any two repository lists agree on it). -/
theorem org_member_flag_iff_member (m : List String) (s e : Int)
    (repos repos' : List Repo) (d d' : CDict) (l : String)
    (p p' : ContributorInfo)
    (hd : foldRepoList m s e [] repos = .ok d)
    (hp : dictLookup d l = some p)
    (hd' : foldRepoList m s e [] repos' = .ok d')
    (hp' : dictLookup d' l = some p') :
    (p.org_member = true ↔ l ∈ m) ∧ p'.org_member = p.org_member := by
  constructor
  · rw [orgMember_of_lookup hd hp]
    exact contains_iff_mem m l
  · rw [orgMember_of_lookup hd hp, orgMember_of_lookup hd' hp']

/-- Witness for C7 at a concrete input: the two repository orders yield the
same org-member flag, which is true exactly because alice is a public
member. -/
theorem org_member_flag_iff_member_witness :
    (wProfile.org_member = true ↔ "alice" ∈ ["alice"]) ∧
    wProfileRev.org_member = wProfile.org_member :=
  org_member_flag_iff_member ["alice"] 0 1 [wRepo1, wRepo2] [wRepo2, wRepo1]
    [("alice", wProfile)] [("alice", wProfileRev)] "alice"
    wProfile wProfileRev (by rfl) (by rfl) (by rfl) (by rfl)

/-- C8: on a successful run, each profile's yearly counter equals the sum of
the windowed commit counts queried per processed (repository, login) record
over exactly the trailing 365 days ending at `now`, and it is separate from
the lifetime counter, which sums the raw per-repository counts. -/
theorem yearly_window_365_days (mR : Except PyErr (List String))
    (rR : Except PyErr (List Repo)) (now : Int) (d : CDict) (l : String)
    (p : ContributorInfo)
    (hd : contributors_info_dict mR rR now = .ok d)
    (hp : dictLookup d l = some p) :
    p.yearly_contributions =
      ySum (now - 365 * secondsPerDay) now (recsOf (processedRepos rR)) l ∧
    p.contributions = rawSum (recsOf (processedRepos rR)) l := by
  simp only [contributors_info_dict, get_public_org_members] at hd
  cases mR with
  | error err => exact absurd hd (by simp)
  | ok members =>
    cases rR with
    | error err => simp [get_public_source_repos] at hd
    | ok repos =>
      simp only [get_public_source_repos] at hd
      rw [foldRepoList_lookup hd l] at hp
      cases hr : firstRec (recsOf ((repos.filter (fun r => !r.fork)).take 1))
          l with
      | none => rw [hr] at hp; exact absurd hp (by simp)
      | some rc =>
        rw [hr] at hp
        simp only [Option.some.injEq] at hp
        rw [← hp]
        exact ⟨rfl, rfl⟩

/-- Witness for C8 at a concrete input with `now` one year after epoch. -/
theorem yearly_window_365_days_witness :
    wProfileC8.yearly_contributions =
      ySum (365 * secondsPerDay - 365 * secondsPerDay) (365 * secondsPerDay)
        (recsOf (processedRepos (.ok [wRepo1, wRepo2]))) "alice" ∧
    wProfileC8.contributions =
      rawSum (recsOf (processedRepos (.ok [wRepo1, wRepo2]))) "alice" :=
  yearly_window_365_days (.ok ["alice"]) (.ok [wRepo1, wRepo2])
    (365 * secondsPerDay) [("alice", wProfileC8)] "alice" wProfileC8
    (by rfl) (by rfl)

/-- C1 (code bug evidence): with two non-fork repositories — repo1 listing
only bob, repo2 listing only alice — both survive the fork filter, yet the
output of `get_org_contributors_info` contains a single profile, bob's: the
loop iterates `public_repos[:1]` and never folds repo2, contradicting the
stated fold over every repository in the list. -/
theorem agg_folds_only_first_repo :
    get_public_source_repos (.ok [repo1_bug, repo2_bug]) =
      .ok [repo1_bug, repo2_bug] ∧
    (get_org_contributors_info (.ok []) (.ok [repo1_bug, repo2_bug]) 0).map
        (fun out => out.map (List.lookup "login")) =
      .ok [some (Json.str "bob")] :=
  ⟨rfl, rfl⟩

/-- C2 counterexample: with repo1 (not a fork, alice count 5) and repo2 (a
fork, alice count 3), the single output profile is alice's and carries no
`source_contributions` or `fork_contributions` keys at all — the claimed
counters do not exist in the output. -/
theorem fork_counters_absent_counterexample :
    (get_org_contributors_info (.ok []) (.ok [wRepo1, repoFork]) 0).map
        (fun out => out.map (List.lookup "fork_contributions")) =
      .ok [none] ∧
    (get_org_contributors_info (.ok []) (.ok [wRepo1, repoFork]) 0).map
        (fun out => out.map (List.lookup "source_contributions")) =
      .ok [none] ∧
    (get_org_contributors_info (.ok []) (.ok [wRepo1, repoFork]) 0).map
        (fun out => out.map (List.lookup "login")) =
      .ok [some (Json.str "alice")] :=
  ⟨rfl, rfl, rfl⟩

/-- C2 amended: the fork repository is excluded from the repository list
altogether, and alice's merged profile carries the single lifetime counter
`contributions` with value 5 (repo2's count 3 is not tallied anywhere). -/
theorem fork_repo_excluded_amended :
    get_public_source_repos (.ok [wRepo1, repoFork]) = .ok [wRepo1] ∧
    (get_org_contributors_info (.ok []) (.ok [wRepo1, repoFork]) 0).map
        (fun out => out.map (List.lookup "contributions")) =
      .ok [some (Json.num 5)] ∧
    (get_org_contributors_info (.ok []) (.ok [wRepo1, repoFork]) 0).map
        (fun out => out.map (List.lookup "login")) =
      .ok [some (Json.str "alice")] :=
  ⟨rfl, rfl, rfl⟩

/-- C6: in each of the three scripts, a run that does not exit with status
zero writes nothing — the sink only runs after the whole
fetch-filter-aggregate pass succeeded. -/
theorem failed_run_writes_nothing (dataA dataB : Json)
    (mR : Except PyErr (List String)) (rR : Except PyErr (List Repo))
    (now : Int)
    (h1 : (getVipMain dataA).exitZero = false)
    (h2 : (fetchVipMain dataB).exitZero = false)
    (h3 : (orgMain mR rR now).exitZero = false) :
    (getVipMain dataA).written = none ∧
    (fetchVipMain dataB).written = none ∧
    (orgMain mR rR now).written = none := by
  refine ⟨?_, ?_, ?_⟩
  · cases dataA with
    | arr items =>
      simp only [getVipMain] at h1 ⊢
      cases hv : vipFiltered items with
      | error err => simp [hv]
      | ok out => rw [hv] at h1; exact absurd h1 (by simp)
    | null => rfl
    | bool b => rfl
    | num n => rfl
    | str s => rfl
    | obj kvs => rfl
  · simp only [fetchVipMain] at h2 ⊢
    cases hv : fetchFiltered dataB with
    | error err => simp [hv]
    | ok kvs => rw [hv] at h2; exact absurd h2 (by simp)
  · simp only [orgMain] at h3 ⊢
    cases hv : get_org_contributors_info mR rR now with
    | error err => simp [hv]
    | ok v => rw [hv] at h3; exact absurd h3 (by simp)

/-- Witness for C6 at concrete failing inputs: a non-list payload for the
list variant, a non-iterable payload for the keyed variant, and a failing
members fetch for the org script. -/
theorem failed_run_writes_nothing_witness :
    (getVipMain (Json.num 0)).written = none ∧
    (fetchVipMain (Json.num 0)).written = none ∧
    (orgMain (.error (.apiError "boom")) (.ok []) 0).written = none :=
  failed_run_writes_nothing (Json.num 0) (Json.num 0)
    (.error (.apiError "boom")) (.ok []) 0 rfl rfl rfl

/-- C9: when either required environment variable is absent, the module-level
initialization raises the corresponding `ValueError` — so the run aborts
before the API client (the `.ok` payload) is ever constructed, hence before
any network call. -/
theorem missing_env_fails_before_client (env : List (String × String))
    (h : lookupEnv env "GITHUB_TOKEN" = none ∨
         lookupEnv env "ORG_NAME" = none) :
    moduleInit env = .error "GITHUB_TOKEN environment variable not set" ∨
    moduleInit env = .error "ORG_NAME environment variable not set" := by
  cases h with
  | inl h => left; simp [moduleInit, h, strFalsy]
  | inr h =>
    by_cases ht : strFalsy (lookupEnv env "GITHUB_TOKEN") = true
    · left; simp [moduleInit, ht]
    · right
      have ht' : strFalsy (lookupEnv env "GITHUB_TOKEN") = false := by
        cases hx : strFalsy (lookupEnv env "GITHUB_TOKEN") with
        | true => exact absurd hx ht
        | false => rfl
      simp [moduleInit, ht', h, show strFalsy none = true from rfl]

/-- Witness for C9: an empty environment lacks both variables. -/
theorem missing_env_fails_before_client_witness :
    moduleInit [] = .error "GITHUB_TOKEN environment variable not set" ∨
    moduleInit [] = .error "ORG_NAME environment variable not set" :=
  missing_env_fails_before_client [] (Or.inl rfl)

/-! ### Claim theorems for the VIP scripts -/

theorem vipKeep_ok {item : Json} (h : vipItemOk item = true) :
    vipKeep item = .ok (githubNonBlank item) := by
  cases item with
  | obj kvs =>
    have hfo : githubFieldOk (.obj kvs) = true := by
      simp only [vipItemOk, Bool.and_eq_true] at h
      exact h.1.2
    cases hg : List.lookup "github" kvs with
    | none => simp [vipKeep, pyGet, hg, githubNonBlank]
    | some v =>
      cases v with
      | str s =>
        by_cases hs : s = ""
        · subst hs
          have htr : ((pyStripStr "") != "") = false := by decide
          simp [vipKeep, pyGet, hg, pyTruthy, githubNonBlank, htr]
        · have hts : ((s != "") : Bool) = true := by simp [hs]
          simp [vipKeep, pyGet, hg, pyTruthy, hts, pySubscript, pyStrip,
            githubNonBlank]
      | null => simp [vipKeep, pyGet, hg, pyTruthy, githubNonBlank]
      | bool b =>
        have hb : pyTruthy (.bool b) = false := by
          simp only [githubFieldOk, hg] at hfo
          simpa using hfo
        simp [vipKeep, pyGet, hg, hb, githubNonBlank]
      | num n =>
        have hb : pyTruthy (.num n) = false := by
          simp only [githubFieldOk, hg] at hfo
          simpa using hfo
        simp [vipKeep, pyGet, hg, hb, githubNonBlank]
      | arr xs =>
        have hb : pyTruthy (.arr xs) = false := by
          simp only [githubFieldOk, hg] at hfo
          simpa using hfo
        simp [vipKeep, pyGet, hg, hb, githubNonBlank]
      | obj kvs2 =>
        have hb : pyTruthy (.obj kvs2) = false := by
          simp only [githubFieldOk, hg] at hfo
          simpa using hfo
        simp [vipKeep, pyGet, hg, hb, githubNonBlank]
  | null => simp [vipItemOk, isObjB] at h
  | bool b => simp [vipItemOk, isObjB] at h
  | num n => simp [vipItemOk, isObjB] at h
  | str s => simp [vipItemOk, isObjB] at h
  | arr xs => simp [vipItemOk, isObjB] at h

theorem vipProject_ok {item : Json} (hok : vipItemOk item = true)
    (hnb : githubNonBlank item = true) :
    vipProject item = .ok (projectVipP item) := by
  cases item with
  | obj kvs =>
    have hid : hasId (.obj kvs) = true := by
      simp only [vipItemOk, Bool.and_eq_true] at hok
      rcases hok with ⟨-, hor⟩
      simp only [Bool.or_eq_true, Bool.not_eq_true'] at hor
      cases hor with
      | inl h0 => rw [hnb] at h0; cases h0
      | inr h1 => exact h1
    cases hg : List.lookup "github" kvs with
    | none => simp [githubNonBlank, hg] at hnb
    | some v =>
      cases hi : List.lookup "id" kvs with
      | none => simp [hasId, hi] at hid
      | some idv => simp [vipProject, pySubscript, hg, hi, projectVipP]
  | null => simp [githubNonBlank] at hnb
  | bool b => simp [githubNonBlank] at hnb
  | num n => simp [githubNonBlank] at hnb
  | str s => simp [githubNonBlank] at hnb
  | arr xs => simp [githubNonBlank] at hnb

/-- C5: the list-variant filter keeps a record exactly when its `github`
field is present and non-blank after trimming whitespace: the comprehension
equals, record for record, the pure filter by `githubNonBlank` followed by
the projection. -/
theorem vip_filter_keeps_iff_nonblank (data : List Json)
    (h : ∀ item ∈ data, vipItemOk item = true) :
    vipFiltered data = .ok ((data.filter githubNonBlank).map projectVipP) := by
  induction data with
  | nil => rfl
  | cons item rest ih =>
    have hitem : vipItemOk item = true := h item (List.mem_cons_self _ _)
    have hrest : ∀ x ∈ rest, vipItemOk x = true :=
      fun x hx => h x (List.mem_cons_of_mem _ hx)
    simp only [vipFiltered, vipKeep_ok hitem, List.filter_cons]
    cases hnb : githubNonBlank item with
    | false => simpa [hnb] using ih hrest
    | true =>
      rw [vipProject_ok hitem hnb, ih hrest]
      simp [hnb]

/-- Witness for C5 at a concrete payload: one non-blank handle (kept), one
whitespace-only handle (dropped), one absent handle (dropped). -/
theorem vip_filter_keeps_iff_nonblank_witness :
    vipFiltered vipData =
      .ok ((vipData.filter githubNonBlank).map projectVipP) :=
  vip_filter_keeps_iff_nonblank vipData (by decide)

theorem vipItemOk_of_keyed {item : Json} (h : keyedItemOk item = true) :
    vipItemOk item = true := by
  simp only [keyedItemOk, vipItemOk, Bool.and_eq_true, Bool.or_eq_true,
    Bool.not_eq_true'] at *
  obtain ⟨⟨ho, hf⟩, hor⟩ := h
  refine ⟨⟨ho, hf⟩, ?_⟩
  cases hor with
  | inl h0 => exact Or.inl h0
  | inr h1 => exact Or.inr h1.1

theorem keyedValue_ok {item : Json} (hok : keyedItemOk item = true)
    (hnb : githubNonBlank item = true) :
    keyedValue item = .ok (githubKeyOf item, keyedValueP item) := by
  cases item with
  | obj kvs =>
    have hin : hasId (.obj kvs) = true ∧ hasName (.obj kvs) = true := by
      simp only [keyedItemOk, Bool.and_eq_true] at hok
      rcases hok with ⟨-, hor⟩
      simp only [Bool.or_eq_true, Bool.not_eq_true', Bool.and_eq_true] at hor
      cases hor with
      | inl h0 => rw [hnb] at h0; cases h0
      | inr h1 => exact h1
    cases hg : List.lookup "github" kvs with
    | none => simp [githubNonBlank, hg] at hnb
    | some v =>
      cases v with
      | str s =>
        cases hn : List.lookup "name" kvs with
        | none => simp [hasName, hn] at hin
        | some namev =>
          cases hi : List.lookup "id" kvs with
          | none => simp [hasId, hi] at hin
          | some idv =>
            simp [keyedValue, pySubscript, hg, hn, hi, githubKeyOf,
              keyedValueP]
      | null => simp [githubNonBlank, hg] at hnb
      | bool b => simp [githubNonBlank, hg] at hnb
      | num n => simp [githubNonBlank, hg] at hnb
      | arr xs => simp [githubNonBlank, hg] at hnb
      | obj kvs2 => simp [githubNonBlank, hg] at hnb
  | null => simp [githubNonBlank] at hnb
  | bool b => simp [githubNonBlank] at hnb
  | num n => simp [githubNonBlank] at hnb
  | str s => simp [githubNonBlank] at hnb
  | arr xs => simp [githubNonBlank] at hnb

theorem keyed_transfer : ∀ {data : List Json} {acc : List (String × Json)},
    (∀ item ∈ data, keyedItemOk item = true) →
    fetchFilteredList acc data = .ok (data.foldl keyedStep acc) := by
  intro data
  induction data with
  | nil => intro acc _; rfl
  | cons item rest ih =>
    intro acc h
    have hitem : keyedItemOk item = true := h item (List.mem_cons_self _ _)
    have hrest : ∀ x ∈ rest, keyedItemOk x = true :=
      fun x hx => h x (List.mem_cons_of_mem _ hx)
    simp only [fetchFilteredList, vipKeep_ok (vipItemOk_of_keyed hitem),
      List.foldl_cons]
    cases hnb : githubNonBlank item with
    | false => simpa [keyedStep, hnb] using ih hrest
    | true =>
      rw [keyedValue_ok hitem hnb]
      simpa [keyedStep, hnb] using ih hrest

theorem lookup_map_overwrite_ne (acc : List (String × Json)) (k : String)
    (v : Json) (g : String) (hkg : k ≠ g) :
    List.lookup g (acc.map (fun kv => if kv.1 == k then (k, v) else kv)) =
      List.lookup g acc := by
  induction acc with
  | nil => rfl
  | cons x xs ih =>
    obtain ⟨xk, xv⟩ := x
    simp only [List.map_cons]
    by_cases hx : xk = k
    · subst hx
      rw [if_pos (beq_self_eq_true xk)]
      have hgk : (g == xk) = false :=
        beq_eq_false_iff_ne.mpr (fun hh => hkg hh.symm)
      rw [List.lookup_cons, List.lookup_cons, hgk]
      exact ih
    · have hb : (xk == k) = false := beq_eq_false_iff_ne.mpr hx
      have hbn : ¬((xk == k) = true) := by rw [hb]; exact Bool.false_ne_true
      rw [if_neg hbn, List.lookup_cons, List.lookup_cons]
      cases hg : g == xk
      · exact ih
      · rfl

theorem lookup_map_overwrite_eq (acc : List (String × Json)) (k : String)
    (v : Json) (hc : acc.any (fun kv => kv.1 == k) = true) :
    List.lookup k (acc.map (fun kv => if kv.1 == k then (k, v) else kv)) =
      some v := by
  induction acc with
  | nil => simp at hc
  | cons x xs ih =>
    obtain ⟨xk, xv⟩ := x
    simp only [List.map_cons]
    by_cases hx : xk = k
    · subst hx
      rw [if_pos (beq_self_eq_true xk), List.lookup_cons, beq_self_eq_true]
    · have hb : (xk == k) = false := beq_eq_false_iff_ne.mpr hx
      have hbn : ¬((xk == k) = true) := by rw [hb]; exact Bool.false_ne_true
      have hkx : (k == xk) = false :=
        beq_eq_false_iff_ne.mpr (fun hh => hx hh.symm)
      have hc' : xs.any (fun kv => kv.1 == k) = true := by
        simp only [List.any_cons, hb, Bool.false_or] at hc
        exact hc
      rw [if_neg hbn, List.lookup_cons, hkx]
      exact ih hc'

theorem lookup_none_of_not_any (acc : List (String × Json)) (k : String)
    (hc : acc.any (fun kv => kv.1 == k) = false) :
    List.lookup k acc = none := by
  induction acc with
  | nil => rfl
  | cons x xs ih =>
    obtain ⟨xk, xv⟩ := x
    simp only [List.any_cons, Bool.or_eq_false_iff] at hc
    have hkx : (k == xk) = false :=
      beq_eq_false_iff_ne.mpr
        (fun hh => (beq_eq_false_iff_ne.mp hc.1) hh.symm)
    rw [List.lookup_cons, hkx]
    exact ih hc.2

theorem lookup_pyDictInsert (acc : List (String × Json)) (k : String)
    (v : Json) (g : String) :
    List.lookup g (pyDictInsert acc k v) =
      if k == g then some v else List.lookup g acc := by
  unfold pyDictInsert
  by_cases hc : acc.any (fun kv => kv.1 == k) = true
  · rw [if_pos hc]
    by_cases hkg : k = g
    · subst hkg
      rw [lookup_map_overwrite_eq acc k v hc, if_pos (beq_self_eq_true k)]
    · have hb : (k == g) = false := beq_eq_false_iff_ne.mpr hkg
      have hbn : ¬((k == g) = true) := by rw [hb]; exact Bool.false_ne_true
      rw [lookup_map_overwrite_ne acc k v g hkg, if_neg hbn]
  · rw [if_neg hc]
    have hcf : acc.any (fun kv => kv.1 == k) = false := by
      cases hx : acc.any (fun kv => kv.1 == k)
      · rfl
      · exact absurd hx hc
    rw [List.lookup_append]
    by_cases hkg : k = g
    · subst hkg
      rw [lookup_none_of_not_any acc k hcf, List.lookup_cons,
        beq_self_eq_true]
      rfl
    · have hb : (k == g) = false := beq_eq_false_iff_ne.mpr hkg
      have hbn : ¬((k == g) = true) := by rw [hb]; exact Bool.false_ne_true
      have hgk : (g == k) = false :=
        beq_eq_false_iff_ne.mpr (fun hh => hkg hh.symm)
      rw [List.lookup_cons, hgk, if_neg hbn]
      cases hl : List.lookup g acc
      · rfl
      · rfl

theorem keyedDict_lookup : ∀ (data : List Json) (acc : List (String × Json))
    (g : String),
    List.lookup g (data.foldl keyedStep acc) =
      match (data.filter githubNonBlank).reverse.find?
          (fun it => githubKeyOf it == g) with
      | some it => some (keyedValueP it)
      | none => List.lookup g acc := by
  intro data
  induction data with
  | nil => intro acc g; rfl
  | cons item rest ih =>
    intro acc g
    rw [List.foldl_cons, ih]
    cases hnb : githubNonBlank item with
    | false =>
      have hstep : keyedStep acc item = acc := by simp [keyedStep, hnb]
      have hf : List.filter githubNonBlank (item :: rest) =
          List.filter githubNonBlank rest := by
        simp [List.filter_cons, hnb]
      rw [hstep, hf]
    | true =>
      have hstep : keyedStep acc item =
          pyDictInsert acc (githubKeyOf item) (keyedValueP item) := by
        simp [keyedStep, hnb]
      have hf : List.filter githubNonBlank (item :: rest) =
          item :: List.filter githubNonBlank rest := by
        simp [List.filter_cons, hnb]
      rw [hstep, hf, List.reverse_cons, List.find?_append,
        lookup_pyDictInsert]
      cases hr : (List.filter githubNonBlank rest).reverse.find?
          (fun it => githubKeyOf it == g) with
      | some it => simp
      | none =>
        cases hp : githubKeyOf item == g with
        | true => simp [List.find?, hp]
        | false => simp [List.find?, hp]

theorem keys_map_overwrite (acc : List (String × Json)) (k : String)
    (v : Json) :
    (acc.map (fun kv => if kv.1 == k then (k, v) else kv)).map Prod.fst =
      acc.map Prod.fst := by
  induction acc with
  | nil => rfl
  | cons x xs ih =>
    obtain ⟨xk, xv⟩ := x
    simp only [List.map_cons]
    by_cases hx : xk = k
    · subst hx
      rw [if_pos (beq_self_eq_true xk)]
      exact congrArg (List.cons xk) ih
    · have hb : (xk == k) = false := beq_eq_false_iff_ne.mpr hx
      have hbn : ¬((xk == k) = true) := by rw [hb]; exact Bool.false_ne_true
      rw [if_neg hbn]
      exact congrArg (List.cons xk) ih

theorem nodup_keys_pyDictInsert (acc : List (String × Json)) (k : String)
    (v : Json) (h : (acc.map Prod.fst).Nodup) :
    ((pyDictInsert acc k v).map Prod.fst).Nodup := by
  unfold pyDictInsert
  by_cases hc : acc.any (fun kv => kv.1 == k) = true
  · rw [if_pos hc, keys_map_overwrite]
    exact h
  · rw [if_neg hc, List.map_append]
    have hk : k ∉ acc.map Prod.fst := by
      intro hmem
      apply hc
      rw [List.any_eq_true]
      obtain ⟨kv, hkv, hfst⟩ := List.mem_map.mp hmem
      exact ⟨kv, hkv, by rw [hfst]; exact beq_self_eq_true k⟩
    rw [List.nodup_append]
    refine ⟨h, List.nodup_singleton k, ?_⟩
    intro a ha hb
    simp only [List.map_cons, List.map_nil, List.mem_singleton] at hb
    subst hb
    exact hk ha

theorem nodup_keys_keyedDict : ∀ (data : List Json)
    (acc : List (String × Json)),
    (acc.map Prod.fst).Nodup →
    ((data.foldl keyedStep acc).map Prod.fst).Nodup := by
  intro data
  induction data with
  | nil => intro acc h; exact h
  | cons item rest ih =>
    intro acc h
    rw [List.foldl_cons]
    apply ih
    unfold keyedStep
    by_cases hnb : githubNonBlank item = true
    · rw [if_pos hnb]
      exact nodup_keys_pyDictInsert acc _ _ h
    · rw [if_neg hnb]
      exact h

/-- C10: over well-formed records, the keyed comprehension produces exactly
`keyedDict`; its keys are free of duplicates (exactly one entry per handle);
and the entry stored under a handle is the value built from the *last*
surviving record bearing that handle in input order (last-wins). -/
theorem keyed_duplicate_handle_last_wins (data : List Json) (g : String)
    (h : ∀ item ∈ data, keyedItemOk item = true) :
    fetchFiltered (.arr data) = .ok (keyedDict data) ∧
    ((keyedDict data).map Prod.fst).Nodup ∧
    List.lookup g (keyedDict data) =
      ((data.filter githubNonBlank).reverse.find?
        (fun it => githubKeyOf it == g)).map keyedValueP := by
  refine ⟨?_, ?_, ?_⟩
  · simp only [fetchFiltered, pyIter, keyedDict]
    exact keyed_transfer h
  · exact nodup_keys_keyedDict data [] (by simp)
  · rw [keyedDict, keyedDict_lookup]
    cases hr : (data.filter githubNonBlank).reverse.find?
        (fun it => githubKeyOf it == g) with
    | some it => rfl
    | none => rfl

/-- Witness for C10: two surviving records share the handle `al`; the stored
entry is built from the second record. -/
theorem keyed_duplicate_handle_last_wins_witness :
    fetchFiltered (.arr [item1C10, item2C10]) =
      .ok (keyedDict [item1C10, item2C10]) ∧
    ((keyedDict [item1C10, item2C10]).map Prod.fst).Nodup ∧
    List.lookup "al" (keyedDict [item1C10, item2C10]) =
      (([item1C10, item2C10].filter githubNonBlank).reverse.find?
        (fun it => githubKeyOf it == "al")).map keyedValueP :=
  keyed_duplicate_handle_last_wins [item1C10, item2C10] "al" (by decide)

/-- C4 counterexample: the keyed-variant script, given the JSON-object
payload `{}` (not a list), exits zero and writes the empty object — it
neither aborts nor leaves the output file untouched. -/
theorem keyed_obj_payload_writes_counterexample :
    fetchVipMain (Json.obj []) = ⟨true, some (Json.obj [])⟩ := rfl

/-- C4 amended: the list-variant script aborts (exit status 1, nothing
written) on any non-list payload; the keyed-variant script has no shape
check — on a non-empty JSON object it crashes before writing (exit non-zero,
nothing written), but on the empty JSON object it succeeds and overwrites
the output with an empty object. -/
theorem payload_shape_check_amended (d : Json) (kvs : List (String × Json))
    (h1 : isArrB d = false) (h2 : kvs ≠ []) :
    getVipMain d = ⟨false, none⟩ ∧
    fetchVipMain (.obj kvs) = ⟨false, none⟩ ∧
    fetchVipMain (.obj []) = ⟨true, some (.obj [])⟩ := by
  refine ⟨?_, ?_, rfl⟩
  · cases d with
    | arr items => simp [isArrB] at h1
    | null => rfl
    | bool b => rfl
    | num n => rfl
    | str s => rfl
    | obj kvs2 => rfl
  · cases kvs with
    | nil => exact absurd rfl h2
    | cons kv rest => rfl

/-- Witness for C4's amended statement at concrete payloads. -/
theorem payload_shape_check_amended_witness :
    getVipMain (Json.num 3) = ⟨false, none⟩ ∧
    fetchVipMain (.obj [("a", Json.null)]) = ⟨false, none⟩ ∧
    fetchVipMain (.obj []) = ⟨true, some (.obj [])⟩ :=
  payload_shape_check_amended (Json.num 3) [("a", Json.null)] rfl
    (List.cons_ne_nil _ _)
